import Mathlib

/-!
# Verification of the installer_creator build-process supervisor

Shallow embedding of the build-process supervisor of the
`installer_creator` repository, together with proofs settling the frozen
claims C1-C10 about its specification.

Embedded components (each definition carries a pointer to the source it
was translated from):

* the per-line progress classifier of the GUI build thread
  (`config_editor_ui.py`, `_run_command_thread`, winpty path, lines
  1144-1264; the subprocess path at lines 1345-1472 shares the explicit
  `PROGRESS:` handling and the marker/`N of M` logic verbatim),
* the display sink `append_output` / `_replace_last_line` /
  `_append_plain` (`config_editor_ui.py`, lines 1527-1579),
* the pipe-path progress loop of `build_exe.py` `main` (lines 639-728),
* the PTY reader `_enqueue_output` (`build_exe.py`, lines 241-274),
* the cancellation controller `cancel_build`
  (`config_editor_ui.py`, lines 1855-1940).

Modelling conventions:

* Python strings are Lean `String`s; the handful of regular expressions
  used by the classifier are implemented as direct leftmost-match
  backtracking parsers that mirror the Python `re.search` semantics of
  the concrete patterns (the patterns contain no constructs beyond
  character classes, greedy/lazy repetition and literals, so their
  backtracking behaviour is deterministic and is spelled out below).
* Python float arithmetic on progress values is modelled exactly over
  `Nat`/`Rat`.  The only float operations performed by the code are
  `int(float_str)` (integer part of a decimal literal),
  `int(start + tp/100*range)` on the fixed phase/marker table (checked
  value by value to agree with IEEE evaluation), `int(c/t*100)`, and
  `"%.1f"` formatting of a parsed decimal; they are modelled by exact
  integer/decimal arithmetic.
* Emissions of Qt signals and `print` calls are collected in an ordered
  event list; each `*.emit` / `print` call site gets its own
  constructor or tag so that properties about a particular call site
  (for instance the phase-change reset of the task bar) can be stated
  without ambiguity.
* `time.time()` timestamps are rational numbers supplied with the input
  events; exceptions raised by OS calls are oracle booleans carried by
  the modelled process handle.
-/

set_option maxRecDepth 4000

namespace InstallerCreator

/-! ## Python string primitives -/

/-- Whitespace characters stripped by Python `str.strip()` and matched by
the regex class `\s` (ASCII subset; all inputs handled by the supervisor
are ASCII or non-space unicode). -/
def pyIsSpace (c : Char) : Bool :=
  c = ' ' || c = '\t' || c = '\n' || c = '\r' || c = '\x0b' || c = '\x0c'

/-- `str.strip()` on a character list. -/
def pyStripL (l : List Char) : List Char :=
  ((l.dropWhile pyIsSpace).reverse.dropWhile pyIsSpace).reverse

/-- `str.strip()`. -/
def pyStrip (s : String) : String :=
  (pyStripL s.toList).asString

/-- Substring test: Python `needle in hay`. -/
def containsSub (hay needle : List Char) : Bool :=
  match hay with
  | [] => needle.isEmpty
  | _ :: t => needle.isPrefixOf hay || containsSub t needle

/-- Substring test on strings. -/
def strContains (hay needle : String) : Bool :=
  containsSub hay.toList needle.toList

/-- `str.startswith(pre)`. -/
def pyStartsWith (s pre : String) : Bool :=
  pre.toList.isPrefixOf s.toList

/-- `str.lower()` (ASCII letters; other characters are unchanged, which
agrees with Python on every character the supervisor handles). -/
def lowerStr (s : String) : String :=
  (s.toList.map Char.toLower).asString

/-- `str.upper()` (ASCII letters). -/
def upperStr (s : String) : String :=
  (s.toList.map Char.toUpper).asString

/-- `str.endswith("\n")`. -/
def strEndsWithNl (s : String) : Bool :=
  match s.toList.getLast? with
  | some c => c = '\n'
  | none => false

/-- Helper of `splitNl`: accumulate the current segment (reversed). -/
def splitNlAux : List Char → List Char → List String
  | [], acc => [acc.reverse.asString]
  | '\n' :: rest, acc => acc.reverse.asString :: splitNlAux rest []
  | c :: rest, acc => splitNlAux rest (c :: acc)

/-- The lines of a displayed text: segments between newlines (a trailing
newline yields a final empty segment, like Python `split("\n")`). -/
def splitNl (s : String) : List String :=
  splitNlAux s.toList []

/-- Maximal prefix of decimal digits together with the rest. -/
def takeDigits (l : List Char) : List Char × List Char :=
  (l.takeWhile Char.isDigit, l.dropWhile Char.isDigit)

/-- Maximal prefix of `\s` characters together with the rest. -/
def takeWs (l : List Char) : List Char × List Char :=
  (l.takeWhile pyIsSpace, l.dropWhile pyIsSpace)

/-- Numeric value of a digit string. -/
def digitsToNat (l : List Char) : Nat :=
  l.foldl (fun acc c => acc * 10 + (c.toNat - '0'.toNat)) 0

/-- Python `int(s)`: optional surrounding whitespace, optional sign, then a
nonempty digit run.  (Digit-group underscores accepted by CPython are not
modelled; no supervisor input uses them.) -/
def pyInt? (s : String) : Option Int :=
  let l := pyStripL s.toList
  let (sign, l2) : Int × List Char :=
    match l with
    | '+' :: t => (1, t)
    | '-' :: t => (-1, t)
    | _ => (1, l)
  if l2 ≠ [] && l2.all Char.isDigit then
    some (sign * (digitsToNat l2 : Int))
  else
    none

/-- Python `s.split(sep)[-1]` for `sep = "\r"`: the text after the last
carriage return (the whole text when there is none). -/
def afterLastCR (l : List Char) : List Char :=
  ((l.reverse.takeWhile (· ≠ '\r')).reverse)

/-- Python `s.split(":", 2)`: split at the first two colons, the remainder
is kept whole. -/
def pySplitColon2 (s : String) : List String :=
  let l := s.toList
  let a := l.takeWhile (· ≠ ':')
  match l.dropWhile (· ≠ ':') with
  | [] => [s]
  | _ :: r1 =>
    let b := r1.takeWhile (· ≠ ':')
    match r1.dropWhile (· ≠ ':') with
    | [] => [a.asString, b.asString]
    | _ :: r2 => [a.asString, b.asString, r2.asString]

/-- Python `s.rstrip("\n")`: remove every trailing newline. -/
def rstripNl (s : String) : String :=
  ((s.toList.reverse.dropWhile (· = '\n')).reverse).asString

/-! ## ANSI escape stripping and blank-line collapsing

`_run_command_thread` cleans each line with
`re.sub(r"\x1b\[[0-9;]*[a-zA-Z]", "", line)` and `append_output` with
`re.sub(r"\x1b\[[0-9;?]*[A-Za-z]", "", text)`.  A match is an escape
character, `[`, a run of parameter characters and a terminator letter;
parameter characters and letters are disjoint, so `re.sub` removes, at
each escape character in turn, the maximal parameter run when a letter
follows it.  The recursion is driven by a fuel argument (one unit per
consumed character) so that every definition reduces definitionally; the
initial fuel `l.length` is always sufficient. -/

/-- ASCII letter, the class `[a-zA-Z]` (= `[A-Za-z]`). -/
def isAsciiLetter (c : Char) : Bool :=
  ('a' ≤ c && c ≤ 'z') || ('A' ≤ c && c ≤ 'Z')

/-- One `re.sub(escape-sequence, "")` pass; `param` tells which characters
may appear between `[` and the terminator letter. -/
def ansiStripF (param : Char → Bool) : Nat → List Char → List Char
  | 0, l => l
  | _ + 1, [] => []
  | fuel + 1, '\x1b' :: rest =>
    match rest with
    | '[' :: r1 =>
      let ps := r1.takeWhile param
      match r1.dropWhile param with
      | c :: r3 =>
        if isAsciiLetter c then ansiStripF param fuel r3
        else '\x1b' :: '[' :: ps ++ ansiStripF param fuel (c :: r3)
      | [] => '\x1b' :: '[' :: ps
    | _ => '\x1b' :: ansiStripF param fuel rest
  | fuel + 1, c :: rest => c :: ansiStripF param fuel rest

/-- The classifier's cleaning regex `\x1b\[[0-9;]*[a-zA-Z]`
(config_editor_ui.py line 1145). -/
def engineClean (s : String) : String :=
  (ansiStripF (fun c => c.isDigit || c = ';') s.toList.length s.toList).asString

/-- The display sink's cleaning regex `\x1b\[[0-9;?]*[A-Za-z]`
(config_editor_ui.py line 1536). -/
def displayClean (l : List Char) : List Char :=
  ansiStripF (fun c => c.isDigit || c = ';' || c = '?') l.length l

/-- `re.sub(r"\n{3,}", "\n\n", s)`: every maximal run of three or more
newlines becomes exactly two (config_editor_ui.py line 1557). -/
def collapseNlF : Nat → List Char → List Char
  | 0, l => l
  | _ + 1, [] => []
  | fuel + 1, '\n' :: rest =>
    let ns := rest.takeWhile (· = '\n')
    let r2 := rest.dropWhile (· = '\n')
    if 2 ≤ ns.length then '\n' :: '\n' :: collapseNlF fuel r2
    else '\n' :: ns ++ collapseNlF fuel r2
  | fuel + 1, c :: rest => c :: collapseNlF fuel rest

/-- Blank-line collapsing on a string. -/
def collapseNl (l : List Char) : List Char :=
  collapseNlF l.length l

/-! ## The classifier's regular expressions

Python patterns from `_run_command_thread` (winpty path):

* line 1184: `([^:]+):\s+(\d+(?:\.\d+)?)%.*?\|\s*(\d+)/(\d+),\s*(.+)`
* line 1209: `(\d+(?:\.\d+)?)%`
* line 1256: `compiling.*?\((\d+)\s+of\s+(\d+)\)` with `re.IGNORECASE`

`re.search` tries start positions left to right.  In these patterns every
greedy repetition is over a character class disjoint from the literal that
must follow it, so greedy runs never backtrack; the lazy `.*?` scans
forward (never across a newline, since `.` excludes `\n`) for the shortest
extension whose continuation matches; `\s*(.+)` backtracks the whitespace
run from the right until `.+` can contribute at least one non-newline
character.  The parsers below implement exactly that strategy. -/

/-- Match `(\d+(?:\.\d+)?)%` anchored at the head: integer digits, an
optional fraction, then `%`.  Returns integer digits, fraction digits and
the rest after `%`. -/
def pctAt (l : List Char) : Option (List Char × List Char × List Char) :=
  let (d, r1) := takeDigits l
  if d.isEmpty then none
  else
    match r1 with
    | '%' :: r2 => some (d, [], r2)
    | '.' :: r2 =>
      let (f, r3) := takeDigits r2
      if f.isEmpty then none
      else
        match r3 with
        | '%' :: r4 => some (d, f, r4)
        | _ => none
    | _ => none

/-- `re.search(r'(\d+(?:\.\d+)?)%', s)`: leftmost position where `pctAt`
succeeds; returns the integer part value and the fraction digits. -/
def pctSearch : List Char → Option (Nat × List Char)
  | [] => none
  | l@(_ :: rest) =>
    match pctAt l with
    | some (d, f, _) => some (digitsToNat d, f)
    | none => pctSearch rest

/-- The trailing `\s*(.+)` of the progress-bar pattern: greedy whitespace,
backtracked from the right until at least one non-newline character is
available for the greedy `(.+)` (which then extends to the next newline or
the end).  `wRev` is the reversed whitespace run still owned by `\s*`. -/
def groupFiveAux : List Char → List Char → Option (List Char)
  | wRev, [] =>
    match wRev with
    | [] => none
    | c :: wr => groupFiveAux wr [c]
  | wRev, c :: rest =>
    if c = '\n' then
      match wRev with
      | [] => none
      | w :: wr => groupFiveAux wr (w :: c :: rest)
    else
      some ((c :: rest).takeWhile (· ≠ '\n'))

/-- `\s*(.+)` at the head of `l`. -/
def groupFive (l : List Char) : Option (List Char) :=
  groupFiveAux ((l.takeWhile pyIsSpace).reverse) (l.dropWhile pyIsSpace)

/-- `\s*(\d+)/(\d+),\s*(.+)` anchored right after a `|`. -/
def pipeTailAt (l : List Char) : Option (Nat × Nat × List Char) :=
  let (_, r1) := takeWs l
  let (c, r2) := takeDigits r1
  if c.isEmpty then none
  else
    match r2 with
    | '/' :: r3 =>
      let (t, r4) := takeDigits r3
      if t.isEmpty then none
      else
        match r4 with
        | ',' :: r5 =>
          match groupFive r5 with
          | some g5 => some (digitsToNat c, digitsToNat t, g5)
          | none => none
        | _ => none
    | _ => none

/-- The lazy `.*?\|` scan: the nearest `|` (not crossing a newline) whose
continuation `\s*(\d+)/(\d+),\s*(.+)` matches; on failure the `|` is
absorbed by `.*?` and the scan continues. -/
def lazyPipeScan : List Char → Option (Nat × Nat × List Char)
  | [] => none
  | c :: rest =>
    if c = '\n' then none
    else if c = '|' then
      match pipeTailAt rest with
      | some r => some r
      | none => lazyPipeScan rest
    else lazyPipeScan rest

/-- Result of the unified progress-bar pattern (config_editor_ui.py
line 1184): groups 1-5 with the percentage kept as exact decimal
(integer part, fraction digits). -/
structure PBar where
  taskType : String
  pctInt : Nat
  pctFrac : List Char
  cur : Nat
  tot : Nat
  name : String
  deriving DecidableEq, Repr

/-- `:\s+(\d+(?:\.\d+)?)%.*?\|\s*(\d+)/(\d+),\s*(.+)` anchored after the
group-1 colon. -/
def pbarAfterColon (l : List Char) : Option (Nat × List Char × Nat × Nat × List Char) :=
  let (w, r1) := takeWs l
  if w.isEmpty then none
  else
    match pctAt r1 with
    | none => none
    | some (d, f, r2) =>
      match lazyPipeScan r2 with
      | none => none
      | some (c, t, g5) => some (digitsToNat d, f, c, t, g5)

/-- `re.search` of the unified progress-bar pattern: at each start
position, group 1 `([^:]+)` is the maximal non-colon run (it cannot
backtrack, since a shorter run would put a non-colon character where the
`:` is required); the rest is `pbarAfterColon`. -/
def pbarSearch : List Char → Option PBar
  | [] => none
  | l@(c :: rest) =>
    (if c ≠ ':' then
      let g1 := l.takeWhile (· ≠ ':')
      match l.dropWhile (· ≠ ':') with
      | ':' :: r2 =>
        match pbarAfterColon r2 with
        | some (d, f, cur, tot, g5) =>
          some ⟨g1.asString, d, f, cur, tot, g5.asString⟩
        | none => none
      | _ => none
     else none) <|> pbarSearch rest

/-- `(\d+)\s+of\s+(\d+)\)` anchored right after a `(`, on the lowercased
line. -/
def parenTailAt (l : List Char) : Option (Nat × Nat) :=
  let (c, r1) := takeDigits l
  if c.isEmpty then none
  else
    let (w1, r2) := takeWs r1
    if w1.isEmpty then none
    else
      match r2 with
      | 'o' :: 'f' :: r3 =>
        let (w2, r4) := takeWs r3
        if w2.isEmpty then none
        else
          let (t, r5) := takeDigits r4
          if t.isEmpty then none
          else
            match r5 with
            | ')' :: _ => some (digitsToNat c, digitsToNat t)
            | _ => none
      | _ => none

/-- The lazy `.*?\(` scan of the `N of M` pattern. -/
def lazyParenScan : List Char → Option (Nat × Nat)
  | [] => none
  | c :: rest =>
    if c = '\n' then none
    else if c = '(' then
      match parenTailAt rest with
      | some r => some r
      | none => lazyParenScan rest
    else lazyParenScan rest

/-- `re.search(r'compiling.*?\((\d+)\s+of\s+(\d+)\)', s, re.IGNORECASE)`,
implemented on the lowercased line (all pattern literals are lowercase). -/
def moduleSearchL : List Char → Option (Nat × Nat)
  | [] => none
  | l@(_ :: rest) =>
    (if ("compiling".toList).isPrefixOf l then lazyParenScan (l.drop 9)
     else none) <|> moduleSearchL rest

/-- The `N of M` search on a line. -/
def moduleSearch (s : String) : Option (Nat × Nat) :=
  moduleSearchL (lowerStr s).toList

/-! ## Decimal formatting

Python renders the parsed percentage with an f-string `{x:.1f}`.  The
parsed value is an exact decimal `intPart.fracDigits`; rounding it to one
decimal with ties-to-even reproduces CPython for every decimal with at
most one fraction digit (such decimals round-trip through the nearest
IEEE double), which covers all message content any claim depends on. -/

/-- Compare the decimal fraction `0.rest` against `0.5`. -/
def fracCmpHalf : List Char → Ordering
  | [] => .lt
  | c :: rest =>
    if c < '5' then .lt
    else if '5' < c then .gt
    else if rest.any (· ≠ '0') then .gt
    else .eq

/-- Value of `intPart.fracDigits` rounded to one decimal, in tenths. -/
def round1fTenths (intPart : Nat) (frac : List Char) : Nat :=
  let d1 := (frac.headD '0').toNat - '0'.toNat
  let base := intPart * 10 + d1
  match fracCmpHalf frac.tail with
  | .lt => base
  | .gt => base + 1
  | .eq => if d1 % 2 = 0 then base else base + 1

/-- `"%.1f"`-style rendering of the parsed percentage. -/
def pyFormat1f (intPart : Nat) (frac : List Char) : String :=
  let t := round1fTenths intPart frac
  toString (t / 10) ++ "." ++ toString (t % 10)

/-! ## The Progress Inference Engine

State and per-line classification of `_run_command_thread`
(config_editor_ui.py, winpty path, lines 1116-1264).  The `signals.*.emit`
calls become constructors of `Emit`; every `task_progress.emit` call site
carries a `TaskSite` tag naming the line it was translated from, so that
the phase-change reset (line 1231) is distinguishable from the other task
updates.  The legacy `progress` / `status` signals drive the same overall
progress bar and overall status label as `overall_progress` /
`overall_status` (`update_progress` forwards to `update_overall_progress`,
lines 1633-1639). -/

/-- The five phases of `overall_phases` (lines 996-1002). -/
inductive Phase where
  | initPhase
  | nuitkaSetup
  | compilation
  | packaging
  | finalizing
  deriving DecidableEq, Repr

/-- `overall_phases[p]["start"]`. -/
def phaseStart : Phase → Nat
  | .initPhase => 0
  | .nuitkaSetup => 10
  | .compilation => 20
  | .packaging => 70
  | .finalizing => 90

/-- `overall_phases[p]["end"]`. -/
def phaseEnd : Phase → Nat
  | .initPhase => 10
  | .nuitkaSetup => 20
  | .compilation => 70
  | .packaging => 90
  | .finalizing => 100

/-- `overall_phases[p]["message"]`. -/
def phaseMessage : Phase → String
  | .initPhase => "Initializing build process..."
  | .nuitkaSetup => "Setting up Nuitka environment..."
  | .compilation => "Compiling application..."
  | .packaging => "Packaging executable..."
  | .finalizing => "Finalizing build..."

/-- One entry of the `nuitka_markers` table (lines 1005-1024). -/
structure MarkerEntry where
  pattern : String
  phase : Phase
  taskProgress : Nat
  message : String
  deriving DecidableEq, Repr

/-- `nuitka_markers` in dict insertion order (iteration order of the
`for marker, marker_info in nuitka_markers.items()` loop). -/
def nuitkaMarkers : List MarkerEntry := [
  ⟨"Nuitka-Options:", .nuitkaSetup, 50, "Configuring Nuitka options..."⟩,
  ⟨"Starting Python compilation", .compilation, 5, "Starting Python compilation..."⟩,
  ⟨"C compiler", .compilation, 15, "Setting up C compiler..."⟩,
  ⟨"Compiling", .compilation, 30, "Compiling Python modules..."⟩,
  ⟨"Generating", .compilation, 50, "Generating C code..."⟩,
  ⟨"Building extension modules", .compilation, 70, "Building extension modules..."⟩,
  ⟨"Linking", .compilation, 85, "Linking modules..."⟩,
  ⟨"Packaging", .packaging, 30, "Packaging application..."⟩,
  ⟨"Copying", .packaging, 70, "Copying dependencies..."⟩,
  ⟨"Executable built successfully", .finalizing, 100, "Build completed successfully!"⟩,
  ⟨"Nuitka:INFO:", .nuitkaSetup, 10, "Nuitka initialization..."⟩,
  ⟨"Nuitka:WARNING:", .compilation, 20, "Processing warnings..."⟩,
  ⟨"Used Python", .nuitkaSetup, 30, "Python environment detected..."⟩,
  ⟨"Creating single file", .packaging, 50, "Creating single file executable..."⟩,
  ⟨"Optimization", .compilation, 60, "Optimizing code..."⟩,
  ⟨"Backend C compiler", .compilation, 25, "Configuring C compiler..."⟩,
  ⟨"Total memory usage", .finalizing, 90, "Finalizing build..."⟩]

/-- Call sites of `signals.task_progress.emit` in the classifier:
initial emission (line 1121), progress-bar path (line 1201), simple
percentage path (line 1212), phase-change reset (line 1231), marker task
update (line 1248), `N of M` path (line 1262). -/
inductive TaskSite where
  | startup
  | pbar
  | simplePct
  | markerReset
  | markerTask
  | moduleOf
  deriving DecidableEq, Repr

/-- One Qt signal emission of the build thread. -/
inductive Emit where
  | output (s : String)
  | progress (n : Int)
  | status (s : String)
  | overallProgress (n : Nat)
  | overallStatus (s : String)
  | taskProgress (site : TaskSite) (n : Nat)
  | taskStatus (s : String)
  deriving DecidableEq, Repr

/-- Classifier state across lines: `current_phase`,
`last_overall_progress`, `last_task_progress`, `line_count`
(lines 1026-1029, 1116). -/
structure EngineState where
  currentPhase : Phase
  lastOverall : Nat
  lastTask : Nat
  lineCount : Nat
  deriving DecidableEq, Repr

/-- State at the start of a build run. -/
def initEngineState : EngineState :=
  ⟨.initPhase, 0, 0, 0⟩

/-- The emissions performed before the read loop (lines 1119-1122). -/
def initEmits : List Emit :=
  [.overallProgress (phaseStart .initPhase),
   .overallStatus (phaseMessage .initPhase),
   .taskProgress .startup 0,
   .taskStatus "Waiting for Nuitka output..."]

/-- Keyword test guarding the `[DEBUG] Progress line detected` echo
(line 1154). -/
def debugKeywordHit (clean : String) : Bool :=
  ["%", "compiling", "progress", "done", "nuitka", "payload"].any
    (fun k => strContains (lowerStr clean) k)

/-- Status message synthesized for a progress-bar match
(lines 1192-1198). -/
def pbarStatusMsg (r : PBar) : String :=
  let tt := pyStrip r.taskType
  let nm := pyStrip r.name
  let pct := pyFormat1f r.pctInt r.pctFrac
  let counts := " (" ++ toString r.cur ++ "/" ++ toString r.tot ++ ") - " ++ pct ++ "%"
  if strContains (upperStr tt) "PASS" then "Compiling " ++ nm ++ counts
  else if strContains (upperStr tt) "ONEFILE" || strContains (upperStr tt) "PAYLOAD" then
    "Packaging " ++ nm ++ counts
  else tt ++ ": " ++ nm ++ counts

/-- Emissions of the progress-bar path (lines 1200-1204):
`int(nuitka_percent)` is the integer part of the parsed decimal. -/
def pbarEmits (r : PBar) : List Emit :=
  [.taskProgress .pbar r.pctInt,
   .taskStatus (pbarStatusMsg r),
   .output ("[DEBUG] Progress bar matched: " ++ pyStrip r.taskType ++ " - "
     ++ pyFormat1f r.pctInt r.pctFrac ++ "%\n")]

/-- Keyword test of the simple-percentage fallback (line 1210). -/
def simpleKeywordHit (clean : String) : Bool :=
  ["progress", "done", "compiling", "building", "generating"].any
    (fun k => strContains (lowerStr clean) k)

/-- Emissions of the simple-percentage fallback (lines 1211-1219). -/
def simpleEmits (clean : String) (d : Nat) (f : List Char) : List Emit :=
  let desc0 := pyStrip clean
  let desc := if 100 < desc0.toList.length then (desc0.toList.take 97).asString ++ "..." else desc0
  [.taskProgress .simplePct d,
   .taskStatus desc,
   .output ("[DEBUG] Simple percentage matched: " ++ pyFormat1f d f ++ "%\n")]

/-- First marker whose lowercased pattern occurs in the lowercased line
(lines 1224-1225). -/
def findMarker (clean : String) : Option MarkerEntry :=
  nuitkaMarkers.find? (fun m => strContains (lowerStr clean) (lowerStr m.pattern))

/-- The marker branch body (lines 1226-1252).  The overall recomputation
`int(phase_info["start"] + (task_progress/100) * phase_range)` is exact
integer arithmetic here; for every entry of the fixed marker/phase table
the IEEE float evaluation performed by Python yields the same integer
(checked entry by entry). -/
def markerStep (st : EngineState) (m : MarkerEntry) : EngineState × List Emit :=
  let changed := m.phase ≠ st.currentPhase
  let st1 := if changed then { st with currentPhase := m.phase, lastTask := 0 } else st
  let resetEs : List Emit := if changed then [.taskProgress .markerReset 0] else []
  let newOverall :=
    phaseStart st1.currentPhase
      + m.taskProgress * (phaseEnd st1.currentPhase - phaseStart st1.currentPhase) / 100
  let (st2, oEs) :=
    if st1.lastOverall < newOverall then
      ({ st1 with lastOverall := newOverall },
       [Emit.overallProgress newOverall, Emit.overallStatus (phaseMessage st1.currentPhase)])
    else (st1, [])
  let (st3, tEs) :=
    if st2.lastTask < m.taskProgress then
      ({ st2 with lastTask := m.taskProgress },
       [Emit.taskProgress .markerTask m.taskProgress, Emit.taskStatus m.message])
    else (st2, [])
  (st3, resetEs ++ oEs ++ tEs)

/-- The marker-table fallback (lines 1223-1252): no-op when no marker
pattern occurs in the line. -/
def markerPart (st : EngineState) (clean : String) : EngineState × List Emit :=
  match findMarker clean with
  | some m => markerStep st m
  | none => (st, [])

/-- Emissions of the `N of M` fallback (lines 1254-1264). -/
def moduleEmits (clean : String) : List Emit :=
  match moduleSearch clean with
  | some (c, t) =>
    if 0 < t then
      [.taskProgress .moduleOf (c * 100 / t),
       .taskStatus ("Compiling module " ++ toString c ++ " of " ++ toString t)]
    else []
  | none => []

/-- Marker fallback followed by the `N of M` fallback (`progress_updated`
is false on this path, so both run; lines 1222-1264). -/
def markerAndModule (st : EngineState) (clean : String) : EngineState × List Emit :=
  ((markerPart st clean).1, (markerPart st clean).2 ++ moduleEmits clean)

/-- The classification cascade on a cleaned line (lines 1176-1264):
progress-bar pattern, else simple percentage with keyword, else marker
table, in every case followed by the `N of M` fallback when no percentage
path fired. -/
def classify (st : EngineState) (clean : String) : EngineState × List Emit :=
  match pbarSearch clean.toList with
  | some r => (st, pbarEmits r)
  | none =>
    match pctSearch clean.toList with
    | some (d, f) =>
      if simpleKeywordHit clean then (st, simpleEmits clean d f)
      else markerAndModule st clean
    | none => markerAndModule st clean

/-- Full processing of one raw line (lines 1144-1264): ANSI cleaning, echo
to the display sink, debug echo, explicit `PROGRESS:` protocol handling
(`continue` on success, fall through to the classifier when `int()`
raises), then the classification cascade. -/
def processLine (st : EngineState) (line : String) : EngineState × List Emit :=
  let clean := engineClean line
  let st0 := { st with lineCount := st.lineCount + 1 }
  let dbg : List Emit :=
    if debugKeywordHit clean then
      [.output ("[DEBUG] Progress line detected: " ++ pyStrip clean ++ "\n")]
    else []
  let base := Emit.output clean :: dbg
  if pyStartsWith (pyStrip clean) "PROGRESS:" then
    let parts := pySplitColon2 (pyStrip clean)
    if 2 ≤ parts.length then
      match pyInt? (parts.getD 1 "") with
      | some p =>
        let msg := if 2 < parts.length then pyStrip (parts.getD 2 "") else ""
        (st0, base ++ [Emit.progress p] ++ if msg ≠ "" then [Emit.status msg] else [])
      | none =>
        let (st1, es) := classify st0 clean
        (st1, base ++ es)
    else (st0, base)
  else
    let (st1, es) := classify st0 clean
    (st1, base ++ es)

/-- Processing of a sequence of lines. -/
def runLines (st : EngineState) : List String → EngineState × List Emit
  | [] => (st, [])
  | l :: ls =>
    let (st1, es1) := processLine st l
    let (st2, es2) := runLines st1 ls
    (st2, es1 ++ es2)

/-- A whole build-thread run over the given lines: initial emissions, then
per-line processing. -/
def runEngine (lines : List String) : EngineState × List Emit :=
  ((runLines initEngineState lines).1,
   initEmits ++ (runLines initEngineState lines).2)

/-! ### Projections on emission lists -/

/-- Values received by the overall progress bar: both the
`overall_progress` signal and the legacy `progress` signal update it. -/
def overallValues (es : List Emit) : List Int :=
  es.filterMap fun e =>
    match e with
    | .progress n => some n
    | .overallProgress n => some (n : Int)
    | _ => none

/-- Values emitted on the `overall_progress` signal (the marker path and
the initial emission). -/
def overallMarkerValues (es : List Emit) : List Nat :=
  es.filterMap fun e =>
    match e with
    | .overallProgress n => some n
    | _ => none

/-- Values received by the task progress bar (any call site). -/
def taskValues (es : List Emit) : List Nat :=
  es.filterMap fun e =>
    match e with
    | .taskProgress _ n => some n
    | _ => none

/-- Messages received by the task status label. -/
def taskStatusValues (es : List Emit) : List String :=
  es.filterMap fun e =>
    match e with
    | .taskStatus s => some s
    | _ => none

/-- Messages received by the overall status label via the legacy `status`
signal. -/
def statusValues (es : List Emit) : List String :=
  es.filterMap fun e =>
    match e with
    | .status s => some s
    | _ => none

/-- Number of phase-change task resets (emissions from the call site at
line 1231). -/
def resetCount (es : List Emit) : Nat :=
  es.countP fun e =>
    match e with
    | .taskProgress .markerReset _ => true
    | _ => false

/-- Texts sent to the display sink. -/
def outputTexts (es : List Emit) : List String :=
  es.filterMap fun e =>
    match e with
    | .output s => some s
    | _ => none

/-- A sequence of progress values never moves backwards. -/
def nonDecreasingI : List Int → Bool
  | [] => true
  | [_] => true
  | a :: b :: rest => a ≤ b && nonDecreasingI (b :: rest)

/-- A sequence of progress values never moves backwards. -/
def nonDecreasingN : List Nat → Bool
  | [] => true
  | [_] => true
  | a :: b :: rest => a ≤ b && nonDecreasingN (b :: rest)

/-! ### Unfolding lemmas for the projections -/

@[simp] theorem resetCount_nil : resetCount [] = 0 := rfl

@[simp] theorem resetCount_append (a b : List Emit) :
    resetCount (a ++ b) = resetCount a + resetCount b :=
  List.countP_append _ _ _

@[simp] theorem resetCount_output (s : String) (es : List Emit) :
    resetCount (.output s :: es) = resetCount es := by
  simp [resetCount, List.countP_cons]

@[simp] theorem resetCount_progress (n : Int) (es : List Emit) :
    resetCount (.progress n :: es) = resetCount es := by
  simp [resetCount, List.countP_cons]

@[simp] theorem resetCount_status (s : String) (es : List Emit) :
    resetCount (.status s :: es) = resetCount es := by
  simp [resetCount, List.countP_cons]

@[simp] theorem resetCount_overallProgress (n : Nat) (es : List Emit) :
    resetCount (.overallProgress n :: es) = resetCount es := by
  simp [resetCount, List.countP_cons]

@[simp] theorem resetCount_overallStatus (s : String) (es : List Emit) :
    resetCount (.overallStatus s :: es) = resetCount es := by
  simp [resetCount, List.countP_cons]

@[simp] theorem resetCount_taskStatus (s : String) (es : List Emit) :
    resetCount (.taskStatus s :: es) = resetCount es := by
  simp [resetCount, List.countP_cons]

@[simp] theorem resetCount_taskProgress (site : TaskSite) (n : Nat) (es : List Emit) :
    resetCount (.taskProgress site n :: es) =
      (if site = .markerReset then 1 else 0) + resetCount es := by
  cases site <;> simp [resetCount, List.countP_cons, Nat.add_comm]

@[simp] theorem overallMarkerValues_nil : overallMarkerValues [] = [] := rfl

@[simp] theorem overallMarkerValues_append (a b : List Emit) :
    overallMarkerValues (a ++ b) = overallMarkerValues a ++ overallMarkerValues b :=
  List.filterMap_append _ _ _

@[simp] theorem overallMarkerValues_output (s : String) (es : List Emit) :
    overallMarkerValues (.output s :: es) = overallMarkerValues es := rfl

@[simp] theorem overallMarkerValues_progress (n : Int) (es : List Emit) :
    overallMarkerValues (.progress n :: es) = overallMarkerValues es := rfl

@[simp] theorem overallMarkerValues_status (s : String) (es : List Emit) :
    overallMarkerValues (.status s :: es) = overallMarkerValues es := rfl

@[simp] theorem overallMarkerValues_overallProgress (n : Nat) (es : List Emit) :
    overallMarkerValues (.overallProgress n :: es) = n :: overallMarkerValues es := rfl

@[simp] theorem overallMarkerValues_overallStatus (s : String) (es : List Emit) :
    overallMarkerValues (.overallStatus s :: es) = overallMarkerValues es := rfl

@[simp] theorem overallMarkerValues_taskStatus (s : String) (es : List Emit) :
    overallMarkerValues (.taskStatus s :: es) = overallMarkerValues es := rfl

@[simp] theorem overallMarkerValues_taskProgress (site : TaskSite) (n : Nat) (es : List Emit) :
    overallMarkerValues (.taskProgress site n :: es) = overallMarkerValues es := rfl

@[simp] theorem taskValues_nil : taskValues [] = [] := rfl

@[simp] theorem taskValues_append (a b : List Emit) :
    taskValues (a ++ b) = taskValues a ++ taskValues b :=
  List.filterMap_append _ _ _

@[simp] theorem taskValues_output (s : String) (es : List Emit) :
    taskValues (.output s :: es) = taskValues es := rfl

@[simp] theorem taskValues_taskProgress (site : TaskSite) (n : Nat) (es : List Emit) :
    taskValues (.taskProgress site n :: es) = n :: taskValues es := rfl

@[simp] theorem taskValues_taskStatus (s : String) (es : List Emit) :
    taskValues (.taskStatus s :: es) = taskValues es := rfl

/-- A nondecreasing chain survives dropping its head. -/
theorem nonDecreasingN_of_cons {a : Nat} {l : List Nat}
    (h : nonDecreasingN (a :: l) = true) : nonDecreasingN l = true := by
  cases l with
  | nil => rfl
  | cons b rest =>
    have := h
    simp only [nonDecreasingN, Bool.and_eq_true] at this
    exact this.2

/-! ## The display sink

`append_output` (config_editor_ui.py lines 1527-1559) writes into a text
widget; the widget is modelled by its text, with the cursor pinned at the
end (`movePosition(End)` precedes every mutation).  The last line is the
text after the last newline. -/

/-- `_replace_last_line` (lines 1561-1569): the content after the last
newline is replaced by `t`. -/
def replaceLastLine (w t : String) : String :=
  let l := w.toList
  let lastLine := (l.reverse.takeWhile (· ≠ '\n')).reverse
  ((l.take (l.length - lastLine.length)).asString) ++ t

/-- `_append_plain` (lines 1571-1579). -/
def appendPlain (w t : String) : String :=
  if t = "" then w else w ++ t

/-- `append_output` (lines 1527-1559): drop empty texts and `PROGRESS:`
protocol lines, apply carriage-return redraw semantics keeping only the
text after the last CR, strip ANSI sequences, collapse triple blank
lines, and append. -/
def appendOutput (w text : String) : String :=
  if text = "" then w
  else if pyStartsWith (pyStrip text) "PROGRESS:" then w
  else if text.toList.contains '\r' then
    let cleaned := (displayClean (afterLastCR text.toList)).asString
    if strEndsWithNl cleaned then
      appendPlain (replaceLastLine w (rstripNl cleaned)) "\n"
    else
      replaceLastLine w cleaned
  else
    appendPlain w ((collapseNl (displayClean text.toList)).asString)

/-- Widget text after a sequence of `output` emissions has been delivered
to `append_output`, starting from an empty widget. -/
def displayRun (es : List Emit) : String :=
  (outputTexts es).foldl appendOutput ""

/-! ## The build_exe pipe-path progress loop

`build_exe.py` `main`, plain-pipe branch (lines 636-728).  Each consumed
line is echoed and matched against a fixed substring chain that prints
`PROGRESS:<n>:<msg>` protocol lines; a periodic fallback nudges the
percentage from the line count when more than five seconds have passed
since the last periodic update.  Each `print` site has its own
constructor: `echo` for the re-printed child line (line 646),
`progressFixed` for the substring-chain prints (lines 655-696),
`progressPeriodic` for the periodic fallback (line 706), and
`progressFinal` for the completion prints (lines 723-727).  `time.time()`
values arrive with the input lines as exact rationals. -/

/-- Stdout events of the build_exe pipe loop. -/
inductive BOut where
  | echo (s : String)
  | progressFixed (n : Nat) (msg : String)
  | progressPeriodic (n : Nat) (msg : String)
  | progressFinal (n : Nat) (msg : String)
  deriving DecidableEq, Repr

/-- Loop state: `line_count`, `last_progress`, `last_progress_time`
(lines 639-642; `last_output_time` is written but never read on this
path). -/
structure BEState where
  lineCount : Nat
  lastProgress : Nat
  lastProgressTime : ℚ
  deriving DecidableEq, Repr

/-- The fixed substring chain (lines 655-696), in `elif` order. -/
def fixedMarker (line : String) : Option (Nat × String) :=
  if strContains line "Nuitka-Options:" then some (30, "Configuring Nuitka options...")
  else if strContains line "Nuitka:INFO:" && strContains line "Starting Python compilation" then
    some (35, "Starting Python compilation...")
  else if strContains line "Nuitka:INFO:" && strContains line "C compiler" then
    some (40, "Setting up C compiler...")
  else if strContains line "Compiling" then some (45, "Compiling Python modules...")
  else if strContains line "Generating" then some (50, "Generating C code...")
  else if strContains line "Building extension modules" then
    some (55, "Building extension modules...")
  else if strContains line "Linking" then some (60, "Linking modules...")
  else if strContains line "Packaging" then some (75, "Packaging application...")
  else if strContains line "Copying" then some (85, "Copying dependencies...")
  else if strContains line "Executable built successfully" then
    some (95, "Build completed successfully!")
  else none

/-- One iteration of the pipe loop body (lines 644-711) on a line read at
time `t`. -/
def beLine (st : BEState) (line : String) (t : ℚ) : BEState × List BOut :=
  let st0 := { st with lineCount := st.lineCount + 1 }
  let base := [BOut.echo line]
  match fixedMarker line with
  | some (n, m) => (st0, base ++ [BOut.progressFixed n m])
  | none =>
    if 5 < t - st0.lastProgressTime then
      let newP := min 90 (30 + st0.lineCount / 20)
      if st0.lastProgress < newP then
        ({ st0 with lastProgress := newP, lastProgressTime := t },
         base ++ [BOut.progressPeriodic newP
           ("Building... (Line " ++ toString st0.lineCount ++ ")")])
      else (st0, base)
    else (st0, base)

/-- The pipe loop over a list of timestamped lines. -/
def beLines (st : BEState) : List (String × ℚ) → BEState × List BOut
  | [] => (st, [])
  | (l, t) :: rest =>
    let (st1, es1) := beLine st l t
    let (st2, es2) := beLines st1 rest
    (st2, es1 ++ es2)

/-- Result of the modelled fragment of `main`: printed events, the exit
code it terminates with, and whether the build was reported a success. -/
structure BuildResult where
  outputs : List BOut
  exitCode : Int
  success : Bool
  deriving DecidableEq, Repr

/-- The pipe-path fragment of `main` (lines 636-728): consume all lines,
wait for the exit code `rc`, then either fail with `sys.exit(rc)`
(line 721) or print the completion protocol lines (lines 723-727) and
continue successfully.  `t0` is the `time.time()` recorded before the
loop. -/
def buildExeRun (t0 : ℚ) (events : List (String × ℚ)) (rc : Int) : BuildResult :=
  let outs := (beLines ⟨0, 10, t0⟩ events).2
  if rc ≠ 0 then
    ⟨outs ++ [BOut.echo ("Nuitka build failed with return code " ++ toString rc)], rc, false⟩
  else
    ⟨outs ++ [BOut.progressFinal 95 "Finalizing build...",
              BOut.echo "Executable built successfully!",
              BOut.progressFinal 100 "Build completed successfully!"],
     0, true⟩

/-- All overall-percentage protocol values printed by a build_exe run, in
order (every `PROGRESS:` print site). -/
def beProgressValues (outs : List BOut) : List Nat :=
  outs.filterMap fun o =>
    match o with
    | .progressFixed n _ => some n
    | .progressPeriodic n _ => some n
    | .progressFinal n _ => some n
    | _ => none

/-- Values printed by the periodic idle fallback only. -/
def bePeriodicValues (outs : List BOut) : List Nat :=
  outs.filterMap fun o =>
    match o with
    | .progressPeriodic n _ => some n
    | _ => none

@[simp] theorem bePeriodicValues_nil : bePeriodicValues [] = [] := rfl

@[simp] theorem bePeriodicValues_append (a b : List BOut) :
    bePeriodicValues (a ++ b) = bePeriodicValues a ++ bePeriodicValues b :=
  List.filterMap_append _ _ _

@[simp] theorem bePeriodicValues_echo (s : String) (os : List BOut) :
    bePeriodicValues (.echo s :: os) = bePeriodicValues os := rfl

@[simp] theorem bePeriodicValues_fixed (n : Nat) (m : String) (os : List BOut) :
    bePeriodicValues (.progressFixed n m :: os) = bePeriodicValues os := rfl

@[simp] theorem bePeriodicValues_periodic (n : Nat) (m : String) (os : List BOut) :
    bePeriodicValues (.progressPeriodic n m :: os) = n :: bePeriodicValues os := rfl

@[simp] theorem bePeriodicValues_final (n : Nat) (m : String) (os : List BOut) :
    bePeriodicValues (.progressFinal n m :: os) = bePeriodicValues os := rfl

/-! ## The PTY output reader

`_enqueue_output` (build_exe.py lines 241-274).  Each `read()` call either
returns a chunk (the empty chunk signalling EOF), or raises (`PtyClosed`
or any other exception) — both caught inside the loop and turned into a
`break`.  The trace of read outcomes is the input; an exhausted trace
stands for a closed stream.  The function returns the queue contents; it
is total, reflecting that no exception escapes the reader. -/

/-- One outcome of `out_pty.read(CHUNK_SIZE)`. -/
inductive ReadEvent where
  | chunk (s : String)
  | ptyClosed
  | readErr
  deriving DecidableEq, Repr

/-- The reader: forward chunks in order, stop at EOF / closed PTY / any
read exception, and always enqueue the `None` sentinel from the `finally`
block (line 274). -/
def enqueueOutput : List ReadEvent → List (Option String)
  | [] => [none]
  | ReadEvent.chunk s :: rest =>
    if s = "" then [none] else some s :: enqueueOutput rest
  | ReadEvent.ptyClosed :: _ => [none]
  | ReadEvent.readErr :: _ => [none]

/-- The chunks the reader forwards: the nonempty chunks read before the
first EOF / closed / exception outcome. -/
def pendingChunks : List ReadEvent → List String
  | [] => []
  | ReadEvent.chunk s :: rest =>
    if s = "" then [] else s :: pendingChunks rest
  | ReadEvent.ptyClosed :: _ => []
  | ReadEvent.readErr :: _ => []

/-! ## The cancellation controller

`cancel_build` (config_editor_ui.py lines 1855-1940).  The handle is
described by its capabilities (`hasattr`/`callable` probes) and by oracle
booleans saying which OS calls raise and whether the child is still alive
after the grace sleep.  On non-Windows platforms the module-level import
sets `winpty = None` (lines 54-56), so the winpty branch condition
`... and winpty is not None` is false there. -/

/-- The active child handle as seen by `cancel_build`. -/
structure Handle where
  hasTerminate : Bool
  hasKill : Bool
  aliveAfterGrace : Bool
  terminateRaises : Bool
  killRaises : Bool
  sigtermRaises : Bool
  sigkillRaises : Bool
  ctrlBreakRaises : Bool
  deriving DecidableEq, Repr

/-- OS-level actions performed while cancelling, in order. -/
inductive CAct where
  | terminateWinpty
  | killDirect
  | ctrlBreak
  | terminateFallback
  | sigtermGroup
  | sleepGrace
  | pollCheck
  | sigkillGroup
  deriving DecidableEq, Repr

/-- The mutable state touched by `cancel_build`: `self.is_building` and
`self.active_process`. -/
structure CancelState where
  isBuilding : Bool
  activeProcess : Option Handle
  deriving Repr

/-- `winpty is not None and "winpty" in sys.modules`: true only on
Windows with pywinpty importable (lines 44-56). -/
def winptyAvailable (isWin pywinptyOk : Bool) : Bool :=
  isWin && pywinptyOk

/-- The `try` body of `cancel_build` (lines 1863-1918): which actions run
and whether an exception reaches the outer `except` (line 1931).  The
POSIX branch has its own inner `except` that falls back to
`terminate()`. -/
def cancelTryBody (isWin winptyAvail : Bool) (h : Handle) : List CAct × Bool :=
  if h.hasTerminate && winptyAvail then
    ([.terminateWinpty], h.terminateRaises)
  else if h.hasKill then
    ([.killDirect], h.killRaises)
  else if isWin then
    if h.ctrlBreakRaises then ([.ctrlBreak, .terminateFallback], h.terminateRaises)
    else ([.ctrlBreak], false)
  else
    if h.sigtermRaises then
      ([.sigtermGroup, .terminateFallback], h.terminateRaises)
    else if h.aliveAfterGrace then
      if h.sigkillRaises then
        ([.sigtermGroup, .sleepGrace, .pollCheck, .sigkillGroup, .terminateFallback],
         h.terminateRaises)
      else
        ([.sigtermGroup, .sleepGrace, .pollCheck, .sigkillGroup], false)
    else
      ([.sigtermGroup, .sleepGrace, .pollCheck], false)

/-- `cancel_build`: no-op unless a build is active; otherwise run the
`try` body — the active reference is cleared both on the normal path
(line 1921) and in the outer `except` (line 1934), and `is_building` is
reset unconditionally (line 1937). -/
def cancelBuild (isWin winptyAvail : Bool) (st : CancelState) : CancelState × List CAct :=
  if st.isBuilding then
    match st.activeProcess with
    | some h =>
      let (acts, _raised) := cancelTryBody isWin winptyAvail h
      (⟨false, none⟩, acts)
    | none => (⟨false, st.activeProcess⟩, [])
  else (st, [])

/-! ## Structural lemmas about the classifier

Shared helper lemmas used by the claim theorems below: how each
classification branch affects the phase, the phase-change reset counter
and the overall-progress emissions. -/

/-- After a marker match the current phase is the marker's phase (the
branch at line 1228 installs it; the equal-phase branch leaves it in
place). -/
theorem markerStep_phase (st : EngineState) (m : MarkerEntry) :
    (markerStep st m).1.currentPhase = m.phase := by
  simp only [markerStep]
  split <;> split <;> split <;> simp_all

/-- The marker branch emits the task reset exactly on a phase change. -/
theorem resetCount_markerStep (st : EngineState) (m : MarkerEntry) :
    resetCount (markerStep st m).2 =
      if m.phase = st.currentPhase then 0 else 1 := by
  simp only [markerStep]
  split <;> split <;> split <;> simp_all

/-- The `N of M` fallback never emits a phase-change reset. -/
theorem resetCount_moduleEmits (clean : String) : resetCount (moduleEmits clean) = 0 := by
  cases hmod : moduleSearch clean with
  | none => simp [moduleEmits, hmod]
  | some ct =>
    obtain ⟨c, t⟩ := ct
    by_cases ht : 0 < t <;> simp [moduleEmits, hmod, ht]

/-- The marker fallback resets the task bar exactly when it changes the
phase. -/
theorem resetCount_markerPart (st : EngineState) (clean : String) :
    resetCount (markerPart st clean).2 =
      if (markerPart st clean).1.currentPhase = st.currentPhase then 0 else 1 := by
  cases hf : findMarker clean with
  | none => simp [markerPart, hf]
  | some m =>
    simp only [markerPart, hf]
    rw [resetCount_markerStep, markerStep_phase]

/-- Marker plus `N of M` fallback: reset exactly on phase change. -/
theorem resetCount_markerAndModule (st : EngineState) (clean : String) :
    resetCount (markerAndModule st clean).2 =
      if (markerAndModule st clean).1.currentPhase = st.currentPhase then 0 else 1 := by
  simp only [markerAndModule, resetCount_append, resetCount_moduleEmits, Nat.add_zero]
  exact resetCount_markerPart st clean

/-- The whole classification cascade resets the task bar exactly when it
changes the phase. -/
theorem resetCount_classify (st : EngineState) (clean : String) :
    resetCount (classify st clean).2 =
      if (classify st clean).1.currentPhase = st.currentPhase then 0 else 1 := by
  cases hb : pbarSearch clean.toList with
  | some r =>
    simp only [classify, hb]
    simp [pbarEmits]
  | none =>
    cases hs : pctSearch clean.toList with
    | none =>
      simp only [classify, hb, hs]
      exact resetCount_markerAndModule st clean
    | some df =>
      obtain ⟨d, f⟩ := df
      by_cases hk : simpleKeywordHit clean
      · simp only [classify, hb, hs, hk, if_true]
        simp [simpleEmits]
      · simp only [classify, hb, hs, hk, Bool.false_eq_true, if_false]
        exact resetCount_markerAndModule st clean

/-- The marker branch either leaves `last_overall_progress` alone and
emits nothing on the overall channel, or raises it strictly and emits the
new value once. -/
theorem markerStep_overall (st : EngineState) (m : MarkerEntry) :
    (overallMarkerValues (markerStep st m).2 = [] ∧
      (markerStep st m).1.lastOverall = st.lastOverall) ∨
    (overallMarkerValues (markerStep st m).2 = [(markerStep st m).1.lastOverall] ∧
      st.lastOverall < (markerStep st m).1.lastOverall) := by
  simp only [markerStep]
  split <;> split <;> split <;> simp_all

/-- The `N of M` fallback emits nothing on the overall channel. -/
theorem overallMarkerValues_moduleEmits (clean : String) :
    overallMarkerValues (moduleEmits clean) = [] := by
  cases hmod : moduleSearch clean with
  | none => simp [moduleEmits, hmod]
  | some ct =>
    obtain ⟨c, t⟩ := ct
    by_cases ht : 0 < t <;> simp [moduleEmits, hmod, ht]

/-- Overall-channel behaviour of marker plus `N of M` fallback. -/
theorem markerAndModule_overall (st : EngineState) (clean : String) :
    (overallMarkerValues (markerAndModule st clean).2 = [] ∧
      (markerAndModule st clean).1.lastOverall = st.lastOverall) ∨
    (overallMarkerValues (markerAndModule st clean).2 = [(markerAndModule st clean).1.lastOverall] ∧
      st.lastOverall < (markerAndModule st clean).1.lastOverall) := by
  simp only [markerAndModule, overallMarkerValues_append, overallMarkerValues_moduleEmits,
    List.append_nil]
  cases hf : findMarker clean with
  | none => left; simp [markerPart, hf]
  | some m =>
    simp only [markerPart, hf]
    exact markerStep_overall st m

/-- Overall-channel behaviour of the classification cascade. -/
theorem classify_overall (st : EngineState) (clean : String) :
    (overallMarkerValues (classify st clean).2 = [] ∧
      (classify st clean).1.lastOverall = st.lastOverall) ∨
    (overallMarkerValues (classify st clean).2 = [(classify st clean).1.lastOverall] ∧
      st.lastOverall < (classify st clean).1.lastOverall) := by
  cases hb : pbarSearch clean.toList with
  | some r =>
    left
    simp only [classify, hb]
    simp [pbarEmits]
  | none =>
    cases hs : pctSearch clean.toList with
    | none =>
      simp only [classify, hb, hs]
      exact markerAndModule_overall st clean
    | some df =>
      obtain ⟨d, f⟩ := df
      by_cases hk : simpleKeywordHit clean
      · left
        simp only [classify, hb, hs, hk, if_true]
        simp [simpleEmits]
      · simp only [classify, hb, hs, hk, Bool.false_eq_true, if_false]
        exact markerAndModule_overall st clean

set_option maxHeartbeats 2000000 in
/-- Overall-channel behaviour of a full line: unchanged, or one strictly
increasing emission. -/
theorem processLine_overall (st : EngineState) (line : String) :
    (overallMarkerValues (processLine st line).2 = [] ∧
      (processLine st line).1.lastOverall = st.lastOverall) ∨
    (overallMarkerValues (processLine st line).2 = [(processLine st line).1.lastOverall] ∧
      st.lastOverall < (processLine st line).1.lastOverall) := by
  have h2 := classify_overall { st with lineCount := st.lineCount + 1 } (engineClean line)
  by_cases hp : pyStartsWith (pyStrip (engineClean line)) "PROGRESS:"
  · by_cases hl : 2 ≤ (pySplitColon2 (pyStrip (engineClean line))).length
    · cases hi : pyInt? ((pySplitColon2 (pyStrip (engineClean line))).getD 1 "") with
      | some p =>
        left
        by_cases hd : debugKeywordHit (engineClean line) <;>
          simp only [processLine, hp, hl, hi, hd, if_true, if_false, ite_true, ite_false,
            Bool.false_eq_true,
            overallMarkerValues_append, overallMarkerValues_output, overallMarkerValues_progress,
            overallMarkerValues_status, overallMarkerValues_nil, List.append_nil] <;>
          simp [apply_ite overallMarkerValues]
      | none =>
        by_cases hd : debugKeywordHit (engineClean line) <;>
          simp only [processLine, hp, hl, hi, hd, if_true, if_false, ite_true, ite_false,
            Bool.false_eq_true,
            overallMarkerValues_append, overallMarkerValues_output, overallMarkerValues_nil,
            List.append_nil, List.nil_append] <;>
          exact h2
    · left
      by_cases hd : debugKeywordHit (engineClean line) <;>
        simp only [processLine, hp, hl, hd, if_true, if_false, ite_true, ite_false,
          Bool.false_eq_true,
          overallMarkerValues_append, overallMarkerValues_output, overallMarkerValues_nil,
          List.append_nil] <;>
        exact ⟨trivial, trivial⟩
  · by_cases hd : debugKeywordHit (engineClean line) <;>
      simp only [processLine, hp, hd, if_true, if_false, ite_true, ite_false,
        Bool.false_eq_true,
        overallMarkerValues_append, overallMarkerValues_output, overallMarkerValues_nil,
        List.append_nil, List.nil_append] <;>
      exact h2

/-- Over any line sequence, `last_overall_progress` dominates the overall
emissions, which never decrease. -/
theorem runLines_overall_chain (st : EngineState) (lines : List String) :
    nonDecreasingN (st.lastOverall :: overallMarkerValues (runLines st lines).2) = true := by
  induction lines generalizing st with
  | nil => rfl
  | cons l ls ih =>
    simp only [runLines, overallMarkerValues_append]
    rcases processLine_overall st l with ⟨h1, h2⟩ | ⟨h1, h2⟩
    · rw [h1]
      simpa [← h2] using ih (processLine st l).1
    · rw [h1]
      have := ih (processLine st l).1
      simp only [List.cons_append, List.singleton_append, nonDecreasingN, Bool.and_eq_true]
      exact ⟨by exact decide_eq_true (Nat.le_of_lt h2), by simpa using this⟩

/-- One pipe-loop iteration: the periodic fallback either stays silent
with `last_progress` unchanged, or raises it strictly and prints it. -/
theorem beLine_periodic (st : BEState) (line : String) (t : ℚ) :
    (bePeriodicValues (beLine st line t).2 = [] ∧
      (beLine st line t).1.lastProgress = st.lastProgress) ∨
    (bePeriodicValues (beLine st line t).2 = [(beLine st line t).1.lastProgress] ∧
      st.lastProgress < (beLine st line t).1.lastProgress) := by
  cases hf : fixedMarker line with
  | some nm =>
    obtain ⟨n, m⟩ := nm
    left
    simp [beLine, hf]
  | none =>
    by_cases ht : 5 < t - ({ st with lineCount := st.lineCount + 1 } : BEState).lastProgressTime
    · by_cases hup : ({ st with lineCount := st.lineCount + 1 } : BEState).lastProgress <
          min 90 (30 + ({ st with lineCount := st.lineCount + 1 } : BEState).lineCount / 20)
      · right
        simp only [beLine, hf, ht, hup, if_true, ite_true]
        simp_all
      · left
        simp only [beLine, hf, ht, hup, if_true, if_false, ite_true, ite_false]
        simp
    · left
      simp only [beLine, hf, ht, if_false, ite_false]
      simp

/-- Over any pipe-loop run, the periodic-fallback prints never
decrease. -/
theorem beLines_periodic_chain (st : BEState) (events : List (String × ℚ)) :
    nonDecreasingN (st.lastProgress :: bePeriodicValues (beLines st events).2) = true := by
  induction events generalizing st with
  | nil => rfl
  | cons e rest ih =>
    obtain ⟨l, t⟩ := e
    simp only [beLines, bePeriodicValues_append]
    rcases beLine_periodic st l t with ⟨h1, h2⟩ | ⟨h1, h2⟩
    · rw [h1]
      simpa [← h2] using ih (beLine st l t).1
    · rw [h1]
      have := ih (beLine st l t).1
      simp only [List.cons_append, List.singleton_append, nonDecreasingN, Bool.and_eq_true]
      exact ⟨by exact decide_eq_true (Nat.le_of_lt h2), by simpa using this⟩

/-! ## Claim theorems -/

/-- C1, counterexample.  The spec claims overall_percent is non-decreasing
on every classification path, including explicit `PROGRESS:<int>` lines.
It is not: the explicit-protocol path forwards the child's value to the
overall bar unclamped (`signals.progress.emit(progress)` at line 1375,
delivered to the overall bar by `update_progress`, line 1633), so the
sequence `PROGRESS:50` then `PROGRESS:30` drives the overall bar from 50
back down to 30. -/
theorem c1_progress_path_decreases :
    overallValues (runEngine ["PROGRESS:50:a\n", "PROGRESS:30:b\n"]).2 = [0, 50, 30] ∧
    nonDecreasingI
      (overallValues (runEngine ["PROGRESS:50:a\n", "PROGRESS:30:b\n"]).2) = false := by
  decide

/-- C1, amended.  The overall percentage is non-decreasing on the
marker-table path of the GUI classifier (guarded by
`new_overall_progress > last_overall_progress`, line 1241) and on the
periodic idle line-count fallback of build_exe
(guarded by `new_progress > last_progress`, line 705) — for every line
sequence and every timestamped run; the explicit `PROGRESS:<int>` path is
not clamped and may decrease. -/
theorem c1_marker_and_periodic_monotone :
    (∀ lines, nonDecreasingN (overallMarkerValues (runEngine lines).2) = true) ∧
    (∀ (t0 : ℚ) (events : List (String × ℚ)) (rc : Int),
      nonDecreasingN (bePeriodicValues (buildExeRun t0 events rc).outputs) = true) := by
  constructor
  · intro lines
    have h := runLines_overall_chain initEngineState lines
    simpa [runEngine, overallMarkerValues_append,
      show overallMarkerValues initEmits = [0] from rfl] using h
  · intro t0 events rc
    have h := beLines_periodic_chain ⟨0, 10, t0⟩ events
    have h' := nonDecreasingN_of_cons h
    simp only [buildExeRun]
    by_cases hrc : rc ≠ 0
    · rw [if_pos hrc]
      simpa using h'
    · rw [if_neg hrc]
      simpa using h'

/-- C2, counterexample.  The spec claims the structured
percentage-with-counts path never decreases task_percent within a phase.
The code emits `int(nuitka_percent)` unconditionally (line 1201): two
consecutive matched lines with percentages 50.0 then 30.0, processed in
the same (unchanged) phase, emit task_percent 50 then 30. -/
theorem c2_pbar_task_percent_decreases :
    taskValues (processLine initEngineState "T: 50.0%| | 5/10, a").2 = [50] ∧
    (processLine initEngineState "T: 50.0%| | 5/10, a").1.currentPhase =
      initEngineState.currentPhase ∧
    taskValues
      (processLine (processLine initEngineState "T: 50.0%| | 5/10, a").1
        "T: 30.0%| | 3/10, b").2 = [30] ∧
    (processLine (processLine initEngineState "T: 50.0%| | 5/10, a").1
        "T: 30.0%| | 3/10, b").1.currentPhase =
      (processLine initEngineState "T: 50.0%| | 5/10, a").1.currentPhase ∧
    (30 : Nat) < 50 := by
  decide

/-- C2, amended.  On every line matched by the unified progress-bar
pattern (and not consumed as an explicit protocol line), the engine sets
task_percent to the integer part of the parsed percentage — unclamped, so
it can decrease within the same phase — and leaves the phase unchanged. -/
theorem c2_pbar_sets_task_percent (st : EngineState) (line : String) (r : PBar)
    (hp : pyStartsWith (pyStrip (engineClean line)) "PROGRESS:" = false)
    (hm : pbarSearch (engineClean line).toList = some r) :
    taskValues (processLine st line).2 = [r.pctInt] ∧
    (processLine st line).1.currentPhase = st.currentPhase := by
  simp only [processLine, classify, hp, hm, Bool.false_eq_true, if_false]
  constructor
  · by_cases hd : debugKeywordHit (engineClean line) <;>
      simp [hd, taskValues, pbarEmits]
  · trivial

/-- C2, witness for `c2_pbar_sets_task_percent` at a concrete matched
line. -/
theorem c2_pbar_sets_task_percent_witness :
    taskValues (processLine initEngineState "X: 80.0%| | 4/5, y").2 =
      [(⟨"X", 80, ['0'], 4, 5, "y"⟩ : PBar).pctInt] ∧
    (processLine initEngineState "X: 80.0%| | 4/5, y").1.currentPhase =
      initEngineState.currentPhase :=
  c2_pbar_sets_task_percent initEngineState "X: 80.0%| | 4/5, y"
    ⟨"X", 80, ['0'], 4, 5, "y"⟩ (by decide) (by decide)

/-- C3, counterexample.  The spec claims no emitted task_percent exceeds
100.  The percentage paths are unclamped: the line `150% done` matches the
simple-percentage fallback (keyword `done`, line 1210) and emits
task_percent 150. -/
theorem c3_task_percent_exceeds_100 :
    taskValues (processLine initEngineState "150% done").2 = [150] ∧
    (100 : Nat) < 150 := by
  decide

set_option maxHeartbeats 2000000 in
/-- C3, amended.  For every state and input line, the phase-change reset
of task_percent to 0 (call site line 1231) is emitted exactly once when
the line changes the phase and never otherwise; emitted task_percent
values are not clamped to 100. -/
theorem c3_reset_once_per_phase_transition (st : EngineState) (line : String) :
    resetCount (processLine st line).2 =
      if (processLine st line).1.currentPhase = st.currentPhase then 0 else 1 := by
  have h2 := resetCount_classify { st with lineCount := st.lineCount + 1 } (engineClean line)
  by_cases hp : pyStartsWith (pyStrip (engineClean line)) "PROGRESS:"
  · by_cases hl : 2 ≤ (pySplitColon2 (pyStrip (engineClean line))).length
    · cases hi : pyInt? ((pySplitColon2 (pyStrip (engineClean line))).getD 1 "") with
      | some p =>
        by_cases hd : debugKeywordHit (engineClean line) <;>
          simp only [processLine, hp, hl, hi, hd, if_true, if_false, ite_true, ite_false,
            Bool.false_eq_true,
            resetCount_append, resetCount_output, resetCount_progress, resetCount_status,
            resetCount_nil, Nat.add_zero, Nat.zero_add] <;>
          simp [apply_ite resetCount]
      | none =>
        by_cases hd : debugKeywordHit (engineClean line) <;>
          simp only [processLine, hp, hl, hi, hd, if_true, if_false, ite_true, ite_false,
            Bool.false_eq_true,
            resetCount_append, resetCount_output, resetCount_nil,
            Nat.add_zero, Nat.zero_add] <;>
          exact h2
    · by_cases hd : debugKeywordHit (engineClean line) <;>
        simp only [processLine, hp, hl, hd, if_true, if_false, ite_true, ite_false,
          Bool.false_eq_true,
          resetCount_append, resetCount_output, resetCount_nil,
          Nat.add_zero, Nat.zero_add]
  · by_cases hd : debugKeywordHit (engineClean line) <;>
      simp only [processLine, hp, hd, if_true, if_false, ite_true, ite_false,
        Bool.false_eq_true,
        resetCount_append, resetCount_output, resetCount_nil,
        Nat.add_zero, Nat.zero_add] <;>
      exact h2

/-- C4, counterexample.  Feeding `PROGRESS:42:Doing the thing` does yield
overall 42 with message `Doing the thing`, but the spec's claim that the
line never appears in the displayed output fails: the debug echo at lines
1154-1155 fires first (the lowercased line contains `progress`), is not
filtered by `append_output` (it does not start with `PROGRESS:`), and
quotes the entire protocol line into the display. -/
theorem c4_progress_line_quoted_in_debug_echo :
    overallValues (processLine initEngineState "PROGRESS:42:Doing the thing\n").2 = [42] ∧
    statusValues (processLine initEngineState "PROGRESS:42:Doing the thing\n").2 =
      ["Doing the thing"] ∧
    strContains
      (displayRun (processLine initEngineState "PROGRESS:42:Doing the thing\n").2)
      "PROGRESS:42:Doing the thing" = true := by
  decide

/-- C4, amended.  The line yields overall_percent 42 and overall_message
`Doing the thing`, and the protocol line itself is never rendered as a
display line: `append_output` drops any text whose stripped form starts
with `PROGRESS:` (lines 1532-1534) — though a `[DEBUG]` echo quoting the
line is displayed. -/
theorem c4_progress_line_consumed :
    overallValues (processLine initEngineState "PROGRESS:42:Doing the thing\n").2 = [42] ∧
    statusValues (processLine initEngineState "PROGRESS:42:Doing the thing\n").2 =
      ["Doing the thing"] ∧
    "PROGRESS:42:Doing the thing" ∉
      splitNl (displayRun (processLine initEngineState "PROGRESS:42:Doing the thing\n").2) ∧
    ∀ w, appendOutput w "PROGRESS:42:Doing the thing\n" = w := by
  refine ⟨by decide, by decide, by decide, fun w => rfl⟩

/-- C5.  The Nuitka progress-bar line `PASS 1: 72.5%|…| 174/240,
module_name` is classified by the unified pattern: task_percent becomes
`int(72.5) = 72` and the synthesized message contains both the module name
and the `174/240` counts. -/
theorem c5_pass_line_classification :
    taskValues
      (processLine initEngineState
        "PASS 1: 72.5%|████████████████████▏ | 174/240, module_name").2 = [72] ∧
    taskStatusValues
      (processLine initEngineState
        "PASS 1: 72.5%|████████████████████▏ | 174/240, module_name").2 =
      ["Compiling module_name (174/240) - 72.5%"] ∧
    strContains "Compiling module_name (174/240) - 72.5%" "module_name" = true ∧
    strContains "Compiling module_name (174/240) - 72.5%" "174/240" = true := by
  decide

/-- C6.  Chunk `abc\rdef` followed by chunk `ghi\n` renders as the single
line `defghi`: the text after the last carriage return replaces the
partial line in place, and the following chunk is appended to it. -/
theorem c6_carriage_return_single_line :
    appendOutput (appendOutput "" "abc\rdef") "ghi\n" = "defghi\n" ∧
    splitNl (appendOutput (appendOutput "" "abc\rdef") "ghi\n") = ["defghi", ""] := by
  decide

/-- C7.  For every trace of read outcomes — ending in EOF, a closed PTY,
or a read exception — the PTY reader forwards exactly the chunks read
before the terminating outcome, in order, and always pushes the `None`
end-of-stream sentinel last; the reader is a total function of the trace,
reflecting that no exception propagates out of it. -/
theorem c7_reader_always_emits_sentinel (evs : List ReadEvent) :
    enqueueOutput evs = (pendingChunks evs).map Option.some ++ [none] := by
  induction evs with
  | nil => rfl
  | cons e rest ih =>
    cases e with
    | chunk s =>
      by_cases h : s = "" <;> simp [enqueueOutput, pendingChunks, h, ih]
    | ptyClosed => rfl
    | readErr => rfl

/-- C8.  For an active handle reaching the POSIX process-group branch
(winpty dispatch false, no kill attribute), cancellation first sends
SIGTERM to the process group; when that call does not raise it sleeps the
0.5-second grace period, polls, and sends SIGKILL to the group exactly
when the child is still alive; and the active-child reference is `None`
afterwards for every combination of raise oracles. -/
theorem c8_posix_group_cancellation (h : Handle) (wa : Bool)
    (hw : (h.hasTerminate && wa) = false) (hk : h.hasKill = false) :
    (cancelBuild false wa ⟨true, some h⟩).1.activeProcess = none ∧
    (cancelBuild false wa ⟨true, some h⟩).2.head? = some CAct.sigtermGroup ∧
    (h.sigtermRaises = false →
      (cancelBuild false wa ⟨true, some h⟩).2.take 3 =
        [CAct.sigtermGroup, CAct.sleepGrace, CAct.pollCheck] ∧
      (CAct.sigkillGroup ∈ (cancelBuild false wa ⟨true, some h⟩).2 ↔
        h.aliveAfterGrace = true)) := by
  simp only [cancelBuild, cancelTryBody, hw, hk]
  by_cases hs : h.sigtermRaises <;>
    by_cases ha : h.aliveAfterGrace <;>
      by_cases hsk : h.sigkillRaises <;>
        simp [hs, ha, hsk]

/-- C8, witness for `c8_posix_group_cancellation`: a plain POSIX handle
that stays alive through the grace period. -/
theorem c8_posix_group_cancellation_witness :
    (cancelBuild false false
      ⟨true, some ⟨false, false, true, false, false, false, false, false⟩⟩).1.activeProcess =
        none ∧
    (cancelBuild false false
      ⟨true, some ⟨false, false, true, false, false, false, false, false⟩⟩).2.head? =
        some CAct.sigtermGroup ∧
    ((⟨false, false, true, false, false, false, false, false⟩ : Handle).sigtermRaises = false →
      (cancelBuild false false
        ⟨true, some ⟨false, false, true, false, false, false, false, false⟩⟩).2.take 3 =
        [CAct.sigtermGroup, CAct.sleepGrace, CAct.pollCheck] ∧
      (CAct.sigkillGroup ∈ (cancelBuild false false
          ⟨true, some ⟨false, false, true, false, false, false, false, false⟩⟩).2 ↔
        (⟨false, false, true, false, false, false, false, false⟩ : Handle).aliveAfterGrace =
          true)) :=
  c8_posix_group_cancellation ⟨false, false, true, false, false, false, false, false⟩ false
    (by decide) (by decide)

/-- C9.  A child printing the three marker lines and exiting 0 drives the
build_exe pipe loop through PROGRESS 30, 45, 95 and the completion prints
95 and 100: the final overall value is the finalization ceiling 100 (the
end of the finalization phase range) and the run is reported successful
with exit code 0. -/
theorem c9_end_to_end_success :
    beProgressValues
        (buildExeRun 0
          [("Nuitka-Options: x\n", 0), ("Compiling module (3 of 10)\n", 0),
           ("Executable built successfully\n", 0)] 0).outputs = [30, 45, 95, 95, 100] ∧
    (beProgressValues
        (buildExeRun 0
          [("Nuitka-Options: x\n", 0), ("Compiling module (3 of 10)\n", 0),
           ("Executable built successfully\n", 0)] 0).outputs).getLast? = some 100 ∧
    (buildExeRun 0
        [("Nuitka-Options: x\n", 0), ("Compiling module (3 of 10)\n", 0),
         ("Executable built successfully\n", 0)] 0).exitCode = 0 ∧
    (buildExeRun 0
        [("Nuitka-Options: x\n", 0), ("Compiling module (3 of 10)\n", 0),
         ("Executable built successfully\n", 0)] 0).success = true ∧
    phaseEnd Phase.finalizing = 100 := by
  decide

/-- C10.  On non-Windows platforms `winpty` is `None`, so the winpty
dispatch is false; for any active handle with a callable `kill`,
cancellation takes the direct-kill branch: the only OS action is
`kill()` on the single child — no group SIGTERM, no grace sleep, no group
SIGKILL — and the active reference is cleared. -/
theorem c10_kill_branch_shadows_group_branch (h : Handle) (pywinptyOk : Bool)
    (hk : h.hasKill = true) :
    (cancelBuild false (winptyAvailable false pywinptyOk) ⟨true, some h⟩).2 =
      [CAct.killDirect] ∧
    (cancelBuild false (winptyAvailable false pywinptyOk) ⟨true, some h⟩).1.activeProcess =
      none ∧
    CAct.sigtermGroup ∉ (cancelBuild false (winptyAvailable false pywinptyOk)
      ⟨true, some h⟩).2 ∧
    CAct.sigkillGroup ∉ (cancelBuild false (winptyAvailable false pywinptyOk)
      ⟨true, some h⟩).2 ∧
    CAct.sleepGrace ∉ (cancelBuild false (winptyAvailable false pywinptyOk)
      ⟨true, some h⟩).2 := by
  simp [cancelBuild, cancelTryBody, winptyAvailable, hk]

/-- C10, witness for `c10_kill_branch_shadows_group_branch`: a plain
subprocess handle with a kill method on a non-Windows platform. -/
theorem c10_kill_branch_shadows_group_branch_witness :
    (cancelBuild false (winptyAvailable false true)
      ⟨true, some ⟨false, true, false, false, false, false, false, false⟩⟩).2 =
      [CAct.killDirect] ∧
    (cancelBuild false (winptyAvailable false true)
      ⟨true, some ⟨false, true, false, false, false, false, false, false⟩⟩).1.activeProcess =
      none ∧
    CAct.sigtermGroup ∉ (cancelBuild false (winptyAvailable false true)
      ⟨true, some ⟨false, true, false, false, false, false, false, false⟩⟩).2 ∧
    CAct.sigkillGroup ∉ (cancelBuild false (winptyAvailable false true)
      ⟨true, some ⟨false, true, false, false, false, false, false, false⟩⟩).2 ∧
    CAct.sleepGrace ∉ (cancelBuild false (winptyAvailable false true)
      ⟨true, some ⟨false, true, false, false, false, false, false, false⟩⟩).2 :=
  c10_kill_branch_shadows_group_branch
    ⟨false, true, false, false, false, false, false, false⟩ true (by decide)

end InstallerCreator
